import Mathlib

/-!
Verification of the velsystems admin dashboard's category-tree renderer
(`src/components/CategoryTree.tsx`), its HTTP client wrapper
(`src/utils/api.ts`, two snapshots), and its auth retry configuration
(`src/contexts/AuthContext.tsx`, `src/App.tsx`), as a shallow embedding.

Strings model JavaScript strings; `""` models an absent optional prop.
-/

/-- `isPrefOf needle hay` is true when `needle` occurs at the start of `hay`. -/
def isPrefOf : List Char → List Char → Bool
  | [], _ => true
  | _ :: _, [] => false
  | a :: as, b :: bs => a == b && isPrefOf as bs

/-- Occurrence of `needle` anywhere in `hay` (contiguously). -/
def hasSubOf (needle : List Char) : List Char → Bool
  | [] => isPrefOf needle []
  | b :: bs => isPrefOf needle (b :: bs) || hasSubOf needle bs

/-- JavaScript `hay.includes(needle)` on strings: contiguous substring test. -/
def strIncludes (hay needle : String) : Bool :=
  hasSubOf needle.data hay.data

/-- JavaScript `s.toLowerCase()` on the ASCII strings this code handles:
`Char.toLower` applied to every character. -/
def jsToLower (s : String) : String :=
  ⟨s.data.map Char.toLower⟩

/-- JavaScript `s.startsWith(pre)`: the spec phrases the 401 redirect guard
with this predicate (the code itself uses `includes`). -/
def strStartsWith (s pre : String) : Bool :=
  isPrefOf pre.data s.data

/-- The `Category` entity of `src/types/category.ts`:
`{id, name, slug, description, imageUrl, status (0|1), sortOrder, children, parentId?}`.
`status` is modelled as `Nat` (the source annotates it `0 | 1`), `sortOrder` as `Int`. -/
inductive Category where
  | mk (id : String) (name : String) (slug : String) (description : String)
       (imageUrl : String) (status : Nat) (sortOrder : Int)
       (children : List Category) (parentId : Option String)
deriving Repr

def Category.id : Category → String
  | .mk i _ _ _ _ _ _ _ _ => i

def Category.name : Category → String
  | .mk _ n _ _ _ _ _ _ _ => n

def Category.slug : Category → String
  | .mk _ _ s _ _ _ _ _ _ => s

def Category.description : Category → String
  | .mk _ _ _ d _ _ _ _ _ => d

def Category.imageUrl : Category → String
  | .mk _ _ _ _ im _ _ _ _ => im

def Category.status : Category → Nat
  | .mk _ _ _ _ _ st _ _ _ => st

def Category.sortOrder : Category → Int
  | .mk _ _ _ _ _ _ so _ _ => so

def Category.children : Category → List Category
  | .mk _ _ _ _ _ _ _ cs _ => cs

/-- `CategoryTree.tsx` lines 45-47: `!searchTerm || name.toLowerCase().includes(searchTerm.toLowerCase()) || slug.toLowerCase().includes(...)`. -/
def matchesSearch (searchTerm : String) (c : Category) : Bool :=
  searchTerm == "" ||
  strIncludes (jsToLower c.name) (jsToLower searchTerm) ||
  strIncludes (jsToLower c.slug) (jsToLower searchTerm)

/-- `CategoryTree.tsx` lines 49-52: `!statusFilter || statusFilter === 'all' || (statusFilter === 'active' && status === 1) || (statusFilter === 'inactive' && status === 0)`. -/
def matchesStatus (statusFilter : String) (c : Category) : Bool :=
  statusFilter == "" ||
  statusFilter == "all" ||
  (statusFilter == "active" && c.status == 1) ||
  (statusFilter == "inactive" && c.status == 0)

/-- `CategoryTree.tsx` lines 54-63: `category.children?.some(child => childMatchesSearch && childMatchesStatus)` — one level deep only. -/
def hasVisibleChildren (searchTerm statusFilter : String) (c : Category) : Bool :=
  c.children.any fun child =>
    matchesSearch searchTerm child && matchesStatus statusFilter child

/-- `CategoryTree.tsx` line 65: `shouldShow = matchesSearch && matchesStatus`. -/
def shouldShow (searchTerm statusFilter : String) (c : Category) : Bool :=
  matchesSearch searchTerm c && matchesStatus statusFilter c

/-- The render condition of `CategoryTree.tsx` line 67 in positive form: a node
renders its card unless `!shouldShow && !hasVisibleChildren`. -/
def isRendered (searchTerm statusFilter : String) (c : Category) : Bool :=
  shouldShow searchTerm statusFilter c || hasVisibleChildren searchTerm statusFilter c

mutual
/-- The `CategoryNode` component (`CategoryTree.tsx` lines 22-195) projected to
the sequence of category cards it renders, in render order: it returns nothing
when `!shouldShow && !hasVisibleChildren` (line 67), otherwise it renders its
own card followed by a recursive `CategoryNode` for each child (lines 178-192;
`isExpanded` starts `true`, line 30). -/
def CategoryNode (searchTerm statusFilter : String) : Category → List Category
  | .mk i n s d im st so cs p =>
    if !shouldShow searchTerm statusFilter (.mk i n s d im st so cs p) &&
       !hasVisibleChildren searchTerm statusFilter (.mk i n s d im st so cs p) then
      []
    else
      Category.mk i n s d im st so cs p :: CategoryTree searchTerm statusFilter cs

/-- The `CategoryTree` component (`CategoryTree.tsx` lines 197-228) projected to
the rendered category cards: one `CategoryNode` per root, concatenated (the
empty forest renders only the static empty state, hence no cards). -/
def CategoryTree (searchTerm statusFilter : String) : List Category → List Category
  | [] => []
  | c :: cs => CategoryNode searchTerm statusFilter c ++ CategoryTree searchTerm statusFilter cs
end

mutual
/-- All nodes of a category tree (the node itself and all its descendants), in preorder. -/
def allNodes : Category → List Category
  | .mk i n s d im st so cs p => Category.mk i n s d im st so cs p :: allNodesForest cs

/-- All nodes of a category forest, in preorder. -/
def allNodesForest : List Category → List Category
  | [] => []
  | c :: cs => allNodes c ++ allNodesForest cs
end

/-- A JSON-like value, as the response bodies handled by `src/utils/api.ts`:
`jnull` also stands for JavaScript `undefined` (an absent field). -/
inductive Json where
  | jnull
  | jstr (s : String)
  | jnum (n : Int)
  | jobj (fields : List (String × Json))
deriving Repr

/-- First binding of a key in a JavaScript object literal's field list. -/
def jlookup : List (String × Json) → String → Option Json
  | [], _ => none
  | (k, v) :: fs, key => if k == key then some v else jlookup fs key

/-- Field access `j[k]`; `none` models JavaScript `undefined`. -/
def getField : Json → String → Option Json
  | .jobj fs, k => jlookup fs k
  | _, _ => none

/-- The guard `responseData && typeof responseData === 'object'` of `api.ts`:
true exactly for (truthy) objects; `null`/`undefined` are falsy, strings and
numbers have a different `typeof`. -/
def isObjTruthy : Json → Bool
  | .jobj _ => true
  | _ => false

/-- JavaScript truthiness of a value, as used by `x || 'An error occurred'`. -/
def jsTruthy : Json → Bool
  | .jnull => false
  | .jstr s => !(s == "")
  | .jnum n => !(n == 0)
  | .jobj _ => true

/-- JavaScript strict equality `j === s` against a string literal. -/
def isStrVal (j : Json) (s : String) : Bool :=
  match j with
  | .jstr t => t == s
  | _ => false

/-- JavaScript string coercion of a value, as performed by `new Error(x)`. -/
def jsString : Json → String
  | .jnull => "undefined"
  | .jstr s => s
  | .jnum n => toString n
  | .jobj _ => "[object Object]"

/-- The generic `apiCall` of the later `src/utils/api.ts` snapshot (lines
97-139), as a function of the HTTP response body: it reads `response.data.data`,
and when that payload is an object with a `message` field it fails with the
inner `data` (coerced to a string, falling back to `'An error occurred'`) if
`message === 'error'`, returns the inner `data` otherwise; any other payload is
returned as-is. -/
def apiCall (body : Json) : Except String Json :=
  let responseData := (getField body "data").getD .jnull
  if isObjTruthy responseData && (getField responseData "message").isSome then
    if isStrVal ((getField responseData "message").getD .jnull) "error" then
      .error
        (let d := (getField responseData "data").getD .jnull
         if jsTruthy d then jsString d else "An error occurred")
    else
      .ok ((getField responseData "data").getD .jnull)
  else
    .ok responseData

/-- The generic `apiCall` of the earlier `src/utils/api.ts` snapshot (lines
37-55): it returns `response.data.data` with no inner-envelope inspection. -/
def apiCallEarly (body : Json) : Except String Json :=
  .ok ((getField body "data").getD .jnull)

/-- The browser-visible state the response interceptor of `api.ts` acts on:
the `AUTH-TOKEN` (resp. `auth-token`) cookie, `window.location.pathname`, and
the navigation target assigned to `window.location.href`, if any. -/
structure Browser where
  authToken : Option String
  pathname : String
  navTarget : Option String
deriving Repr, DecidableEq

/-- The response interceptor of the later `api.ts` snapshot (lines 81-94): on a
401 status it removes the `AUTH-TOKEN` cookie, then assigns
`window.location.href = '/login'` only if `!window.location.pathname.includes('/login')`. -/
def respInterceptor401 (status : Nat) (b : Browser) : Browser :=
  if status == 401 then
    let b1 : Browser := { b with authToken := none }
    if !(strIncludes b1.pathname "/login") then { b1 with navTarget := some "/login" }
    else b1
  else b

/-- The response interceptor of the earlier `api.ts` snapshot (lines 25-34): on
a 401 status it removes the `auth-token` cookie and navigates unconditionally. -/
def respInterceptor401Early (status : Nat) (b : Browser) : Browser :=
  if status == 401 then { b with authToken := none, navTarget := some "/login" }
  else b

/-- The error value a failed query hands to a retry predicate: `error?.message`
and `error?.status` are the only fields the code consults. -/
structure QueryError where
  message : Option String
  status : Option Nat
deriving Repr, DecidableEq

/-- The 401 test of `AuthContext.tsx` line 31:
`error?.message?.includes('401') || error?.status === 401`. -/
def is401Error (e : QueryError) : Bool :=
  (match e.message with
   | some m => strIncludes m "401"
   | none => false) ||
  e.status == some 401

/-- The retry predicate of the `['auth','me']` query in `AuthContext.tsx`
lines 29-35: no retry on a 401 error, otherwise `failureCount < 1`. -/
def authMeRetry (failureCount : Nat) (e : QueryError) : Bool :=
  if is401Error e then false else failureCount < 1

/-- A `retry` option value as configured on a query: a boolean, a retry count,
or a predicate of the failure count and the error. -/
inductive RetryOption where
  | bool (b : Bool)
  | count (n : Nat)
  | pred (p : Nat → QueryError → Bool)

/-- Modelled from the spec: the query library's retry driver is not part of
src/ (only the `retry` option values are). `shouldRetry opt failures e` decides
whether one more automatic retry happens after `failures` failed attempts whose
latest error is `e`: per the spec's reading of these options, `retry: false`
never retries, `retry: n` grants `n` automatic retries, and a predicate is
consulted with the number of failures so far ("a single retry for the
'current user' check, explicitly skipped on authentication failure"). -/
def shouldRetry : RetryOption → Nat → QueryError → Bool
  | .bool b, _, _ => b
  | .count n, failures, _ => failures < n
  | .pred p, failures, e => p failures e

/-- `App.tsx` (the only `new QueryClient` in the repository) sets
`defaultOptions: { queries: { retry: 1, ... } }`: every query that does not
override `retry` — all of them except the `['auth','me']` query — uses this. -/
def appDefaultRetry : RetryOption := .count 1

/-- The `retry` option of the `['auth','me']` query in the
`AuthContext.tsx` snapshot that passes a predicate. -/
def authMeRetryOption : RetryOption := .pred authMeRetry

/-- The `retry` option of the `['auth','me']` query in the other
`AuthContext.tsx` snapshot: `retry: false`. -/
def authMeRetryOptionAlt : RetryOption := .bool false

/-- The 3-level tree of the quirk scenario: only the grandchild `gamma`
matches the search term `"gam"`; neither the middle node nor the root does. -/
def quirkGrandchild : Category :=
  .mk "3" "gamma" "gamma" "" "" 1 0 [] (some "2")

def quirkMiddle : Category :=
  .mk "2" "beta" "beta" "" "" 1 0 [quirkGrandchild] (some "1")

def quirkRoot : Category :=
  .mk "1" "alpha" "alpha" "" "" 1 0 [quirkMiddle] none

/-- A 3-level tree for the depth claim: only the leaf `leafy` matches `"leafy"`. -/
def deepLeaf : Category :=
  .mk "t3" "leafy" "leafy" "" "" 1 0 [] (some "t2")

def deepMid : Category :=
  .mk "t2" "mid" "mid" "" "" 1 0 [deepLeaf] (some "t1")

def deepTop : Category :=
  .mk "t1" "top" "top" "" "" 1 0 [deepMid] none

/-- An active parent with an inactive child: the parent has `status = 1` yet
renders under the `inactive` filter through its visible child. -/
def inactiveChild : Category :=
  .mk "2" "c" "c" "" "" 0 0 [] (some "1")

def activeParent : Category :=
  .mk "1" "p" "p" "" "" 1 0 [inactiveChild] none

/-- The `Phones` child of the end-to-end scenario of the spec. -/
def phones : Category :=
  .mk "2" "Phones" "phones" "" "" 0 0 [] (some "1")

/-- The `Electronics` root of the end-to-end scenario of the spec. -/
def electronics : Category :=
  .mk "1" "Electronics" "electronics" "" "" 1 0 [phones] none

/-- Structural induction for `Category` along the nested `children` lists. -/
theorem Category.ind (P : Category → Prop)
    (h : ∀ i n s d im st so cs p, (∀ c, c ∈ cs → P c) →
      P (Category.mk i n s d im st so cs p)) :
    ∀ c, P c := by
  have key : ∀ (k : Nat) (c : Category), sizeOf c ≤ k → P c := by
    intro k
    induction k with
    | zero =>
      intro c hc
      cases c with
      | mk i n s d im st so cs p =>
        simp only [Category.mk.sizeOf_spec] at hc
        omega
    | succ k ih =>
      intro c hc
      cases c with
      | mk i n s d im st so cs p =>
        refine h i n s d im st so cs p ?_
        intro x hx
        refine ih x ?_
        have hlt : sizeOf x < sizeOf cs := List.sizeOf_lt_of_mem hx
        simp only [Category.mk.sizeOf_spec] at hc
        omega
  intro c
  exact key (sizeOf c) c le_rfl

/-- `CategoryNode` in terms of the positive render condition. -/
theorem CategoryNode_eq (t fi : String) (c : Category) :
    CategoryNode t fi c =
      if isRendered t fi c then c :: CategoryTree t fi c.children else [] := by
  cases c with
  | mk i n s d im st so cs p =>
    simp only [CategoryNode, isRendered, Category.children]
    cases hs : shouldShow t fi (Category.mk i n s d im st so cs p) <;>
      cases hv : hasVisibleChildren t fi (Category.mk i n s d im st so cs p) <;>
        simp

/-- A card appears in the rendered forest exactly when some root's `CategoryNode` renders it. -/
theorem mem_CategoryTree_iff (t fi : String) (f : List Category) (x : Category) :
    x ∈ CategoryTree t fi f ↔ ∃ c, c ∈ f ∧ x ∈ CategoryNode t fi c := by
  induction f with
  | nil => simp [CategoryTree]
  | cons a as ih =>
    simp only [CategoryTree, List.mem_append, ih, List.mem_cons]
    constructor
    · rintro (hx | ⟨c, hc, hx⟩)
      · exact ⟨a, Or.inl rfl, hx⟩
      · exact ⟨c, Or.inr hc, hx⟩
    · rintro ⟨c, (rfl | hc), hx⟩
      · exact Or.inl hx
      · exact Or.inr ⟨c, hc, hx⟩

/-- Every card the renderer emits satisfies the render condition itself. -/
theorem isRendered_of_mem (t fi : String) :
    ∀ c, ∀ x ∈ CategoryNode t fi c, isRendered t fi x = true := by
  refine Category.ind (fun c => ∀ x ∈ CategoryNode t fi c, isRendered t fi x = true) ?_
  intro i n s d im st so cs p ih x hx
  rw [CategoryNode_eq] at hx
  cases hr : isRendered t fi (Category.mk i n s d im st so cs p) with
  | false => rw [hr] at hx; simp at hx
  | true =>
    rw [hr] at hx
    simp only [if_true, Category.children, List.mem_cons] at hx
    rcases hx with rfl | hx2
    · exact hr
    · obtain ⟨c, hc, hxc⟩ := (mem_CategoryTree_iff t fi cs x).mp hx2
      exact ih c hc x hxc

/-- A node satisfying the render condition appears in its own `CategoryNode` output. -/
theorem self_mem_CategoryNode (t fi : String) (c : Category)
    (hr : isRendered t fi c = true) : c ∈ CategoryNode t fi c := by
  rw [CategoryNode_eq, hr]
  simp

/-- The renderer recurses into the children of every card it emits: a rendered
card's child that itself satisfies the render condition is emitted as well. -/
theorem child_mem_CategoryNode (t fi : String) :
    ∀ c, ∀ x ∈ CategoryNode t fi c, ∀ y ∈ x.children,
      isRendered t fi y = true → y ∈ CategoryNode t fi c := by
  refine Category.ind
    (fun c => ∀ x ∈ CategoryNode t fi c, ∀ y ∈ x.children,
      isRendered t fi y = true → y ∈ CategoryNode t fi c) ?_
  intro i n s d im st so cs p ih x hx y hy hry
  rw [CategoryNode_eq] at hx
  cases hr : isRendered t fi (Category.mk i n s d im st so cs p) with
  | false => rw [hr] at hx; simp at hx
  | true =>
    rw [hr] at hx
    simp only [if_true, Category.children, List.mem_cons] at hx
    rw [CategoryNode_eq, hr]
    simp only [if_true, Category.children, List.mem_cons]
    rcases hx with rfl | hx2
    · right
      exact (mem_CategoryTree_iff t fi cs y).mpr
        ⟨y, hy, self_mem_CategoryNode t fi y hry⟩
    · obtain ⟨c, hc, hxc⟩ := (mem_CategoryTree_iff t fi cs x).mp hx2
      right
      exact (mem_CategoryTree_iff t fi cs y).mpr
        ⟨c, hc, ih c hc x hxc y hy hry⟩

/-- Unfolding `CategoryTree` on the empty forest. -/
theorem CategoryTree_nil (t fi : String) : CategoryTree t fi [] = [] := by
  simp [CategoryTree]

/-- Unfolding `CategoryTree` on a non-empty forest. -/
theorem CategoryTree_cons (t fi : String) (c : Category) (cs : List Category) :
    CategoryTree t fi (c :: cs) = CategoryNode t fi c ++ CategoryTree t fi cs := by
  simp [CategoryTree]

/-- Unfolding `allNodes` at a node. -/
theorem allNodes_eq (c : Category) :
    allNodes c = c :: allNodesForest c.children := by
  cases c with
  | mk i n s d im st so cs p => simp [allNodes, Category.children]

/-- Unfolding `allNodesForest` on the empty forest. -/
theorem allNodesForest_nil : allNodesForest [] = [] := by
  simp [allNodesForest]

/-- Unfolding `allNodesForest` on a non-empty forest. -/
theorem allNodesForest_cons (c : Category) (cs : List Category) :
    allNodesForest (c :: cs) = allNodes c ++ allNodesForest cs := by
  simp [allNodesForest]

/-- An empty search term matches every node. -/
theorem matchesSearch_empty (c : Category) : matchesSearch "" c = true := by
  simp [matchesSearch]

/-- The `all` status filter accepts every node. -/
theorem matchesStatus_all (c : Category) : matchesStatus "all" c = true := by
  simp [matchesStatus]

/-- The `inactive` status filter accepts exactly the nodes with `status = 0`. -/
theorem matchesStatus_inactive (c : Category) :
    matchesStatus "inactive" c = (c.status == 0) := by
  simp [matchesStatus]

/-- The `active` status filter accepts exactly the nodes with `status = 1`. -/
theorem matchesStatus_active (c : Category) :
    matchesStatus "active" c = (c.status == 1) := by
  simp [matchesStatus]

/-- With an empty search term and the `all` filter, every node passes the render condition. -/
theorem isRendered_empty_all (c : Category) : isRendered "" "all" c = true := by
  simp [isRendered, shouldShow, matchesSearch, matchesStatus]

/-- A node that matches the search passes the render condition under the `all` filter. -/
theorem isRendered_all_of_matchesSearch (term : String) (c : Category)
    (h : matchesSearch term c = true) : isRendered term "all" c = true := by
  simp [isRendered, shouldShow, h, matchesStatus]

/-- With the identity filter, a node renders exactly its preorder subtree. -/
theorem CategoryTree_identity_aux (cs : List Category)
    (h : ∀ c ∈ cs, CategoryNode "" "all" c = allNodes c) :
    CategoryTree "" "all" cs = allNodesForest cs := by
  induction cs with
  | nil => rw [CategoryTree_nil, allNodesForest_nil]
  | cons a as ih =>
    rw [CategoryTree_cons, allNodesForest_cons,
      h a (List.mem_cons_self a as), ih fun x hx => h x (List.mem_cons_of_mem a hx)]

/-- With the identity filter, `CategoryNode` emits the whole subtree in preorder. -/
theorem CategoryNode_identity_aux : ∀ c, CategoryNode "" "all" c = allNodes c := by
  refine Category.ind (fun c => CategoryNode "" "all" c = allNodes c) ?_
  intro i n s d im st so cs p ih
  rw [CategoryNode_eq, isRendered_empty_all, if_pos rfl, allNodes_eq]
  simp only [Category.children]
  rw [CategoryTree_identity_aux cs ih]

/-- A node rendered under a status filter that pins `status` to `v` either has
`status = v` itself or has a direct child matching the search with `status = v`. -/
theorem rendered_status_aux (filt : String) (v : Nat)
    (hfilt : ∀ x : Category, matchesStatus filt x = (x.status == v)) :
    ∀ (term : String) (f : List Category) (c : Category),
      c ∈ CategoryTree term filt f →
      c.status = v ∨ ∃ ch, ch ∈ c.children ∧ matchesSearch term ch = true ∧ ch.status = v := by
  intro term f c hc
  obtain ⟨r, hrf, hcr⟩ := (mem_CategoryTree_iff term filt f c).mp hc
  have hr := isRendered_of_mem term filt r c hcr
  rw [isRendered] at hr
  rcases Bool.or_eq_true_iff.mp hr with hss | hvc
  · rw [shouldShow] at hss
    obtain ⟨h1, h2⟩ := Bool.and_eq_true_iff.mp hss
    rw [hfilt] at h2
    exact Or.inl (eq_of_beq h2)
  · rw [hasVisibleChildren] at hvc
    obtain ⟨ch, hch, hmatch⟩ := List.any_eq_true.mp hvc
    obtain ⟨m1, m2⟩ := Bool.and_eq_true_iff.mp hmatch
    rw [hfilt] at m2
    exact Or.inr ⟨ch, hch, m1, eq_of_beq m2⟩

/-- C8: rendering with an empty search term and status filter `all` shows every
node of the forest — the rendered card list is exactly the preorder enumeration
of all nodes, so the filter acts as the identity. -/
theorem c8_identity_filter (f : List Category) :
    CategoryTree "" "all" f = allNodesForest f :=
  CategoryTree_identity_aux f fun c _ => CategoryNode_identity_aux c

/-- C4: on the spec's end-to-end forest, search `"phone"` with filter `all`
renders exactly `Electronics` (direct matching child) then `Phones` (matches
the search); the same search with filter `active` renders nothing. -/
theorem c4_end_to_end :
    CategoryTree "phone" "all" [electronics] = [electronics, phones] ∧
    CategoryTree "phone" "active" [electronics] = [] := by
  constructor
  · have h1 : isRendered "phone" "all" electronics = true := by decide
    have h2 : isRendered "phone" "all" phones = true := by decide
    have h3 : electronics.children = [phones] := by rfl
    have h4 : phones.children = [] := by rfl
    simp [CategoryTree_cons, CategoryTree_nil, CategoryNode_eq, h1, h2, h3, h4]
  · have h1 : isRendered "phone" "active" electronics = false := by decide
    simp [CategoryTree_cons, CategoryTree_nil, CategoryNode_eq, h1]

/-- C7: a node failing the render condition (`CategoryTree.tsx` line 67 returns
`null`) renders none of the nodes of its subtree — the recursion into children
happens only inside a rendered node, so even a descendant that satisfies both
filters is not rendered. -/
theorem c7_prune_subtree (term fi : String) (c : Category)
    (h : isRendered term fi c = false) :
    ∀ d, d ∈ allNodes c → d ∉ CategoryNode term fi c := by
  intro d _ hd
  rw [CategoryNode_eq, h] at hd
  simp at hd

/-- Witness for C7 at the quirk tree: the root is not rendered, the grandchild
is a descendant that matches both filters, and it is not rendered. -/
theorem c7_prune_subtree_witness :
    isRendered "gam" "all" quirkRoot = false ∧
    quirkGrandchild ∈ allNodes quirkRoot ∧
    shouldShow "gam" "all" quirkGrandchild = true ∧
    quirkGrandchild ∉ CategoryNode "gam" "all" quirkRoot := by
  have hmem : quirkGrandchild ∈ allNodes quirkRoot := by
    simp [allNodes, allNodesForest, quirkRoot, quirkMiddle, quirkGrandchild]
  exact ⟨by decide, hmem, by decide,
    c7_prune_subtree "gam" "all" quirkRoot (by decide) quirkGrandchild hmem⟩

/-- C1 fails on the code: in the 3-level tree where only the grandchild
`gamma` matches the search `"gam"` and its parent `beta` does not, the
top-level ancestor `alpha` is NOT rendered (the whole subtree renders
nothing), contrary to the claim that the ancestor is rendered. -/
theorem c1_counterexample :
    matchesSearch "gam" quirkGrandchild = true ∧
    matchesSearch "gam" quirkMiddle = false ∧
    matchesSearch "gam" quirkRoot = false ∧
    CategoryNode "gam" "all" quirkRoot = [] := by
  refine ⟨by decide, by decide, by decide, ?_⟩
  have h1 : isRendered "gam" "all" quirkRoot = false := by decide
  rw [CategoryNode_eq, h1]
  simp

/-- C1 (amended): in a 3-level chain whose top node and middle node both fail
the search (filter `all`), the top node renders nothing at all — so a matching
grandchild forces neither the middle node nor the top-level ancestor to render. -/
theorem c1_shallow_prune (term i n s d im : String) (st : Nat) (so : Int)
    (b : Category) (p : Option String)
    (htop : matchesSearch term (Category.mk i n s d im st so [b] p) = false)
    (hmid : matchesSearch term b = false) :
    CategoryNode term "all" (Category.mk i n s d im st so [b] p) = [] := by
  rw [CategoryNode_eq]
  have hr : isRendered term "all" (Category.mk i n s d im st so [b] p) = false := by
    simp [isRendered, shouldShow, hasVisibleChildren, Category.children, htop, hmid]
  rw [hr]
  simp

/-- Witness for the amended C1 at the quirk tree. -/
theorem c1_shallow_prune_witness :
    matchesSearch "gam" quirkRoot = false ∧
    matchesSearch "gam" quirkMiddle = false ∧
    CategoryNode "gam" "all" quirkRoot = [] :=
  ⟨by decide, by decide,
   c1_shallow_prune "gam" "1" "alpha" "alpha" "" "" 1 0 quirkMiddle none
     (by decide) (by decide)⟩

/-- C2 fails on the code: `deepLeaf` matches the search `"leafy"` with status
filter `all`, yet the forest renders nothing at all (its intermediate ancestor
does not match and has no matching direct child), so `deepLeaf` is not shown. -/
theorem c2_counterexample :
    matchesSearch "leafy" deepLeaf = true ∧
    CategoryTree "leafy" "all" [deepTop] = [] := by
  refine ⟨by decide, ?_⟩
  have h1 : isRendered "leafy" "all" deepTop = false := by decide
  simp [CategoryTree_cons, CategoryTree_nil, CategoryNode_eq, h1]

/-- C2 (amended): with status filter `all`, a node whose name or slug contains
the search term is shown when it is a root of the forest, and when its parent
is shown; it need not be shown at greater depth (see the counterexample). -/
theorem c2_match_shown_when_reachable :
    (∀ (term : String) (f : List Category) (N : Category), N ∈ f →
       matchesSearch term N = true → N ∈ CategoryTree term "all" f) ∧
    (∀ (term : String) (f : List Category) (P N : Category),
       P ∈ CategoryTree term "all" f → N ∈ P.children →
       matchesSearch term N = true → N ∈ CategoryTree term "all" f) := by
  constructor
  · intro term f N hNf hm
    exact (mem_CategoryTree_iff term "all" f N).mpr
      ⟨N, hNf, self_mem_CategoryNode term "all" N
        (isRendered_all_of_matchesSearch term N hm)⟩
  · intro term f P N hPf hNP hm
    obtain ⟨c, hcf, hPc⟩ := (mem_CategoryTree_iff term "all" f P).mp hPf
    exact (mem_CategoryTree_iff term "all" f N).mpr
      ⟨c, hcf, child_mem_CategoryNode term "all" c P hPc N hNP
        (isRendered_all_of_matchesSearch term N hm)⟩

/-- Witness for the amended C2: a matching root is shown. -/
theorem c2_match_shown_when_reachable_witness :
    phones ∈ ([phones] : List Category) ∧
    matchesSearch "phone" phones = true ∧
    phones ∈ CategoryTree "phone" "all" [phones] :=
  ⟨List.mem_cons_self phones [], by decide,
   c2_match_shown_when_reachable.1 "phone" [phones] phones
     (List.mem_cons_self phones []) (by decide)⟩

/-- C3 fails on the code: with filter `inactive` (empty search), the node
`activeParent` has `status = 1` and is nevertheless rendered, because its
direct child passes the filter. -/
theorem c3_counterexample :
    activeParent.status = 1 ∧
    CategoryTree "" "inactive" [activeParent] = [activeParent, inactiveChild] := by
  refine ⟨by decide, ?_⟩
  have h1 : isRendered "" "inactive" activeParent = true := by decide
  have h2 : isRendered "" "inactive" inactiveChild = true := by decide
  have h3 : activeParent.children = [inactiveChild] := by rfl
  have h4 : inactiveChild.children = [] := by rfl
  simp [CategoryTree_cons, CategoryTree_nil, CategoryNode_eq, h1, h2, h3, h4]

/-- C3 (amended): the status filter does not partition nodes exactly — a node
rendered under `inactive` either has `status = 0` or has a direct child that
matches the search and has `status = 0`, and symmetrically for `active` with
`status = 1`. -/
theorem c3_status_filter_characterization :
    (∀ (term : String) (f : List Category) (c : Category),
       c ∈ CategoryTree term "inactive" f →
       c.status = 0 ∨ ∃ ch, ch ∈ c.children ∧ matchesSearch term ch = true ∧ ch.status = 0) ∧
    (∀ (term : String) (f : List Category) (c : Category),
       c ∈ CategoryTree term "active" f →
       c.status = 1 ∨ ∃ ch, ch ∈ c.children ∧ matchesSearch term ch = true ∧ ch.status = 1) :=
  ⟨rendered_status_aux "inactive" 0 matchesStatus_inactive,
   rendered_status_aux "active" 1 matchesStatus_active⟩

/-- Witness for the amended C3 at the `activeParent` forest. -/
theorem c3_status_filter_characterization_witness :
    activeParent ∈ CategoryTree "" "inactive" [activeParent] ∧
    (activeParent.status = 0 ∨ ∃ ch, ch ∈ activeParent.children ∧
      matchesSearch "" ch = true ∧ ch.status = 0) := by
  have h1 : isRendered "" "inactive" activeParent = true := by decide
  have hm : activeParent ∈ CategoryTree "" "inactive" [activeParent] := by
    rw [CategoryTree_cons, CategoryNode_eq, h1]
    simp
  exact ⟨hm, c3_status_filter_characterization.1 "" [activeParent] activeParent hm⟩

/-- C5: the later `apiCall` unwraps `{message:"ok", data:{id:"1",name:"X"}}` to
`{id:"1",name:"X"}`, and fails with the text `"Name already exists"` on the
double-wrapped `{message:"ok", data:{message:"error", data:"Name already exists"}}`. -/
theorem c5_envelope_unwrap :
    apiCall (.jobj [("message", .jstr "ok"),
        ("data", .jobj [("id", .jstr "1"), ("name", .jstr "X")])]) =
      .ok (.jobj [("id", .jstr "1"), ("name", .jstr "X")]) ∧
    apiCall (.jobj [("message", .jstr "ok"),
        ("data", .jobj [("message", .jstr "error"),
          ("data", .jstr "Name already exists")])]) =
      .error "Name already exists" :=
  ⟨rfl, rfl⟩

/-- C6 fails on the code: on a 401 at path `/a/login` — which does NOT start
with `/login` — the claim requires a navigation to `/login`, but the
interceptor's guard uses `includes('/login')` and performs no navigation (the
token is still cleared). -/
theorem c6_counterexample :
    strStartsWith "/a/login" "/login" = false ∧
    respInterceptor401 401 ⟨some "tok", "/a/login", none⟩ =
      ⟨none, "/a/login", none⟩ :=
  ⟨by decide, by decide⟩

/-- C6 (amended): on a 401 the interceptor clears the stored token, and
navigates to `/login` unless the current path CONTAINS `/login` (the guard is
`includes`, not `startsWith`). -/
theorem c6_guarded_redirect (b : Browser) :
    (respInterceptor401 401 b).authToken = none ∧
    (respInterceptor401 401 b).navTarget =
      (if strIncludes b.pathname "/login" then b.navTarget else some "/login") := by
  cases h : strIncludes b.pathname "/login" <;>
    simp [respInterceptor401, h]

/-- C10: on a 401 the later interceptor removes the token cookie even when the
path contains `/login`; only the navigation is guarded by the path check. -/
theorem c10_unconditional_token_clear (b : Browser)
    (h : strIncludes b.pathname "/login" = true) :
    (respInterceptor401 401 b).authToken = none ∧
    (respInterceptor401 401 b).navTarget = b.navTarget := by
  simp [respInterceptor401, h]

/-- Witness for C10 at path `/login` with a stored token. -/
theorem c10_unconditional_token_clear_witness :
    strIncludes "/login" "/login" = true ∧
    (respInterceptor401 401 ⟨some "tok", "/login", none⟩).authToken = none ∧
    (respInterceptor401 401 ⟨some "tok", "/login", none⟩).navTarget = none :=
  ⟨by decide,
   (c10_unconditional_token_clear ⟨some "tok", "/login", none⟩ (by decide)).1,
   (c10_unconditional_token_clear ⟨some "tok", "/login", none⟩ (by decide)).2⟩

/-- C9 fails on the code: the app-wide `QueryClient` default (`retry: 1`)
automatically retries ANY query — not only the current-user check — on its
first failure. -/
theorem c9_counterexample :
    shouldRetry appDefaultRetry 0 ⟨none, none⟩ = true := by decide

/-- C9 (amended): every request is retried at most once — the app default
allows no second retry, the current-user predicate allows no second retry and
skips retrying entirely on a 401 error, and the alternative snapshot never
retries the current-user check. -/
theorem c9_retry_at_most_once :
    (∀ (n : Nat) (e : QueryError), 1 ≤ n → shouldRetry appDefaultRetry n e = false) ∧
    (∀ (n : Nat) (e : QueryError), 1 ≤ n → shouldRetry authMeRetryOption n e = false) ∧
    (∀ (n : Nat) (e : QueryError), is401Error e = true →
      shouldRetry authMeRetryOption n e = false) ∧
    (∀ (n : Nat) (e : QueryError), shouldRetry authMeRetryOptionAlt n e = false) := by
  refine ⟨?_, ?_, ?_, ?_⟩
  · intro n e hn
    simp [shouldRetry, appDefaultRetry]
    omega
  · intro n e hn
    simp [shouldRetry, authMeRetryOption, authMeRetry]
    intro
    omega
  · intro n e h401
    simp [shouldRetry, authMeRetryOption, authMeRetry, h401]
  · intro n e
    simp [shouldRetry, authMeRetryOptionAlt]

/-- Witness for the amended C9: after one failure the default retries no more,
and a 401 failure of the current-user check is not retried at all. -/
theorem c9_retry_at_most_once_witness :
    ((1 : Nat) ≤ 1 ∧ shouldRetry appDefaultRetry 1 ⟨none, none⟩ = false) ∧
    (is401Error ⟨some "Request failed with status code 401", some 401⟩ = true ∧
     shouldRetry authMeRetryOption 0
       ⟨some "Request failed with status code 401", some 401⟩ = false) :=
  ⟨⟨by decide, c9_retry_at_most_once.1 1 ⟨none, none⟩ (by decide)⟩,
   ⟨by decide, c9_retry_at_most_once.2.2.1 0
      ⟨some "Request failed with status code 401", some 401⟩ (by decide)⟩⟩
